import Mathlib

/-!
Verification of the QSO amendment diff engine (`qso_diff_analyzer.py`).

Python strings are embedded as `List Char`; the helpers `pyStrip`,
`pyStartsWith` and `pySplit` embed `str.strip()`, `str.startswith(...)`
and `str.split()` (split on runs of whitespace, dropping empty pieces).
A file's contents are embedded as the list of its lines, and a failing
`open` as the `Except.error` case of an `Except`-valued read.
-/

namespace QsoDiff

/-- A Python string, embedded as its sequence of characters. -/
abbrev PyStr := List Char

/-- Embedding of `str.strip()`: drop leading and trailing whitespace. -/
def pyStrip (s : PyStr) : PyStr :=
  ((s.dropWhile Char.isWhitespace).reverse.dropWhile Char.isWhitespace).reverse

/-- Embedding of `s.startswith(pre)`. -/
def pyStartsWith (s pre : PyStr) : Bool := pre.isPrefixOf s

/-- Worker for `pySplit`: accumulates the current token (reversed). -/
def pySplitAux : PyStr → PyStr → List PyStr
  | [], acc => [acc.reverse]
  | c :: cs, acc =>
    if c.isWhitespace then acc.reverse :: pySplitAux cs []
    else pySplitAux cs (c :: acc)

/-- Embedding of `s.split()`: split on whitespace runs, no empty tokens. -/
def pySplit (s : PyStr) : List PyStr :=
  (pySplitAux s []).filter (fun t => t ≠ [])

/-- A raw extracted record: 1-based source line number and stored text. -/
structure RawRecord where
  line_num : Nat
  text : PyStr
deriving DecidableEq, Repr

/-- The literal marker `QSO:`. -/
def qsoMarker : PyStr := "QSO:".data

/-- Worker for `extract_qsos`, carrying the 1-based line counter
(`enumerate(f, 1)`): each line is stripped, and kept when the stripped
line starts with `QSO:`. -/
def extractAux : Nat → List PyStr → List RawRecord
  | _, [] => []
  | n, l :: ls =>
    let line := pyStrip l
    if pyStartsWith line qsoMarker then
      ⟨n, line⟩ :: extractAux (n + 1) ls
    else
      extractAux (n + 1) ls

/-- Embedding of `extract_qsos` on the contents of an already-opened file. -/
def extract_qsos (lines : List PyStr) : List RawRecord := extractAux 1 lines

/-- The parsed record: the 12 named fields of `parse_qso`. -/
structure ParsedQso where
  freq : PyStr
  mode : PyStr
  date : PyStr
  time : PyStr
  mycall : PyStr
  rst_sent : PyStr
  seq_sent : PyStr
  my_region : PyStr
  other_call : PyStr
  rst_rcvd : PyStr
  seq_rcvd : PyStr
  other_region : PyStr
deriving DecidableEq, Repr

/-- Embedding of `parse_qso`: split on whitespace; with at least 13 tokens
map tokens 1 through 12 to the 12 fields, else return no value. -/
def parse_qso (qso_line : PyStr) : Option ParsedQso :=
  let parts := pySplit qso_line
  if 13 ≤ parts.length then
    some
      { freq := parts.getD 1 []
        mode := parts.getD 2 []
        date := parts.getD 3 []
        time := parts.getD 4 []
        mycall := parts.getD 5 []
        rst_sent := parts.getD 6 []
        seq_sent := parts.getD 7 []
        my_region := parts.getD 8 []
        other_call := parts.getD 9 []
        rst_rcvd := parts.getD 10 []
        seq_rcvd := parts.getD 11 []
        other_region := parts.getD 12 [] }
  else
    none

/-- The 12 (field name, original value, revised value) triples, in the
iteration order of the Python dict (its insertion order). -/
def fieldPairs (o r : ParsedQso) : List (String × PyStr × PyStr) :=
  [("freq", o.freq, r.freq), ("mode", o.mode, r.mode),
   ("date", o.date, r.date), ("time", o.time, r.time),
   ("mycall", o.mycall, r.mycall), ("rst_sent", o.rst_sent, r.rst_sent),
   ("seq_sent", o.seq_sent, r.seq_sent), ("my_region", o.my_region, r.my_region),
   ("other_call", o.other_call, r.other_call), ("rst_rcvd", o.rst_rcvd, r.rst_rcvd),
   ("seq_rcvd", o.seq_rcvd, r.seq_rcvd), ("other_region", o.other_region, r.other_region)]

/-- Embedding of the field loop of `compare_qsos`: keep every field whose
two values differ. -/
def field_changes (o r : ParsedQso) : List (String × PyStr × PyStr) :=
  (fieldPairs o r).filter (fun c => c.2.1 ≠ c.2.2)

/-- The changes attached to a Modified position: field-level differences
when both sides parse, and nothing otherwise (`if orig_parsed and
new_parsed` in the source). -/
def changes_for (origText revText : PyStr) : List (String × PyStr × PyStr) :=
  match parse_qso origText, parse_qso revText with
  | some op, some rp => field_changes op rp
  | _, _ => []

/-- One amendment entry of the report. -/
inductive AmendmentEntry where
  | Modified (original revised : RawRecord) (changes : List (String × PyStr × PyStr))
  | Removed (original : RawRecord)
  | Added (revised : RawRecord)
deriving DecidableEq, Repr

/-- Embedding of one iteration of the `for i in range(max_len)` loop of
`compare_qsos`: the accumulator holds the emitted entries and the running
`amendment_count`. -/
def compareStep (rev0_qsos rev4_qsos : List RawRecord)
    (acc : List AmendmentEntry × Nat) (i : Nat) : List AmendmentEntry × Nat :=
  if h : i < rev0_qsos.length ∧ i < rev4_qsos.length then
    let o := rev0_qsos.get ⟨i, h.1⟩
    let r := rev4_qsos.get ⟨i, h.2⟩
    if o.text ≠ r.text then
      (acc.1 ++ [.Modified o r (changes_for o.text r.text)], acc.2 + 1)
    else
      acc
  else if h0 : i < rev0_qsos.length then
    (acc.1 ++ [.Removed (rev0_qsos.get ⟨i, h0⟩)], acc.2 + 1)
  else if h4 : i < rev4_qsos.length then
    (acc.1 ++ [.Added (rev4_qsos.get ⟨i, h4⟩)], acc.2 + 1)
  else
    acc

/-- Embedding of the diff loop of `compare_qsos`: the ordered amendment
entries and the final `amendment_count`. -/
def compare_qsos (rev0_qsos rev4_qsos : List RawRecord) :
    List AmendmentEntry × Nat :=
  (List.range (max rev0_qsos.length rev4_qsos.length)).foldl
    (compareStep rev0_qsos rev4_qsos) ([], 0)

/-- Written from the spec's words (section 4.3): the entry the diff engine
emits at index `i`, described by the four cases on which sides exist. -/
def spec_diffAt (original revised : List RawRecord) (i : Nat) :
    Option AmendmentEntry :=
  match original[i]?, revised[i]? with
  | some o, some r =>
      if o.text ≠ r.text then
        some (.Modified o r (changes_for o.text r.text))
      else
        none
  | some o, none => some (.Removed o)
  | none, some r => some (.Added r)
  | none, none => none

/-- The entry sequence described by the spec: the per-index entries in
index order. -/
def diffEntries (original revised : List RawRecord) : List AmendmentEntry :=
  (List.range (max original.length revised.length)).filterMap
    (spec_diffAt original revised)

theorem compareStep_eq (os rs : List RawRecord) (acc : List AmendmentEntry × Nat)
    (i : Nat) :
    compareStep os rs acc i =
      (acc.1 ++ (spec_diffAt os rs i).toList,
       acc.2 + (spec_diffAt os rs i).toList.length) := by
  unfold compareStep spec_diffAt
  by_cases h0 : i < os.length <;> by_cases h4 : i < rs.length
  · simp only [h0, h4, and_self, dite_true, List.getElem?_eq_getElem,
      List.get_eq_getElem]
    by_cases hne : os[i].text ≠ rs[i].text <;> simp [hne]
  · have : rs[i]? = none := List.getElem?_eq_none (Nat.le_of_not_lt h4)
    simp [h0, h4, this, List.getElem?_eq_getElem h0]
  · have : os[i]? = none := List.getElem?_eq_none (Nat.le_of_not_lt h0)
    simp [h0, h4, this, List.getElem?_eq_getElem h4]
  · have h0n : os[i]? = none := List.getElem?_eq_none (Nat.le_of_not_lt h0)
    have h4n : rs[i]? = none := List.getElem?_eq_none (Nat.le_of_not_lt h4)
    simp [h0, h4, h0n, h4n]

theorem foldl_compareStep (os rs : List RawRecord) (l : List Nat)
    (acc : List AmendmentEntry × Nat) :
    l.foldl (compareStep os rs) acc =
      (acc.1 ++ l.filterMap (spec_diffAt os rs),
       acc.2 + (l.filterMap (spec_diffAt os rs)).length) := by
  induction l generalizing acc with
  | nil => simp
  | cons a l ih =>
    rw [List.foldl_cons, compareStep_eq, ih]
    cases h : spec_diffAt os rs a <;> simp [List.filterMap_cons, h]
    omega

/-- The imperative diff loop computes exactly the spec-described entry
sequence, and its final counter is the number of emitted entries. -/
theorem compare_qsos_eq (os rs : List RawRecord) :
    compare_qsos os rs = (diffEntries os rs, (diffEntries os rs).length) := by
  rw [compare_qsos, foldl_compareStep]
  simp [diffEntries]

theorem spec_diffAt_cons_succ (a b : RawRecord) (os rs : List RawRecord) (i : Nat) :
    spec_diffAt (a :: os) (b :: rs) (i + 1) = spec_diffAt os rs i := by
  simp [spec_diffAt]

theorem spec_diffAt_nil_cons_succ (b : RawRecord) (rs : List RawRecord) (i : Nat) :
    spec_diffAt [] (b :: rs) (i + 1) = spec_diffAt [] rs i := by
  cases h : rs[i]? <;> simp [spec_diffAt, h]

theorem spec_diffAt_cons_nil_succ (a : RawRecord) (os : List RawRecord) (i : Nat) :
    spec_diffAt (a :: os) [] (i + 1) = spec_diffAt os [] i := by
  cases h : os[i]? <;> simp [spec_diffAt, h]

theorem diffEntries_nil_nil : diffEntries [] [] = [] := by
  simp [diffEntries]

theorem diffEntries_cons_cons (a b : RawRecord) (os rs : List RawRecord) :
    diffEntries (a :: os) (b :: rs) =
      (if a.text ≠ b.text then
        [AmendmentEntry.Modified a b (changes_for a.text b.text)]
      else []) ++ diffEntries os rs := by
  unfold diffEntries
  have hmax : max (a :: os).length (b :: rs).length = max os.length rs.length + 1 := by
    simp [List.length_cons, Nat.succ_max_succ]
  rw [hmax, List.range_succ_eq_map, List.filterMap_cons, List.filterMap_map]
  have h0 : spec_diffAt (a :: os) (b :: rs) 0 =
      if a.text ≠ b.text then
        some (.Modified a b (changes_for a.text b.text))
      else none := by
    simp [spec_diffAt]
  have hcomp : spec_diffAt (a :: os) (b :: rs) ∘ Nat.succ = spec_diffAt os rs := by
    funext i
    exact spec_diffAt_cons_succ a b os rs i
  rw [h0, hcomp]
  by_cases hne : a.text ≠ b.text <;> simp [hne]

theorem diffEntries_nil_cons (b : RawRecord) (rs : List RawRecord) :
    diffEntries [] (b :: rs) = .Added b :: diffEntries [] rs := by
  unfold diffEntries
  have hmax : max ([] : List RawRecord).length (b :: rs).length = rs.length + 1 := by
    simp
  have hmax2 : max ([] : List RawRecord).length rs.length = rs.length := by simp
  rw [hmax, hmax2, List.range_succ_eq_map, List.filterMap_cons, List.filterMap_map]
  have hcomp : spec_diffAt [] (b :: rs) ∘ Nat.succ = spec_diffAt [] rs := by
    funext i
    exact spec_diffAt_nil_cons_succ b rs i
  have h0 : spec_diffAt [] (b :: rs) 0 = some (.Added b) := by
    simp [spec_diffAt]
  rw [h0, hcomp]

theorem diffEntries_cons_nil (a : RawRecord) (os : List RawRecord) :
    diffEntries (a :: os) [] = .Removed a :: diffEntries os [] := by
  unfold diffEntries
  have hmax : max (a :: os).length ([] : List RawRecord).length = os.length + 1 := by
    simp
  have hmax2 : max os.length ([] : List RawRecord).length = os.length := by simp
  rw [hmax, hmax2, List.range_succ_eq_map, List.filterMap_cons, List.filterMap_map]
  have hcomp : spec_diffAt (a :: os) [] ∘ Nat.succ = spec_diffAt os [] := by
    funext i
    exact spec_diffAt_cons_nil_succ a os i
  have h0 : spec_diffAt (a :: os) [] 0 = some (.Removed a) := by
    simp [spec_diffAt]
  rw [h0, hcomp]

theorem diffEntries_self (qsos : List RawRecord) : diffEntries qsos qsos = [] := by
  induction qsos with
  | nil => exact diffEntries_nil_nil
  | cons a os ih => rw [diffEntries_cons_cons]; simp [ih]

theorem diffEntries_nil_left (rs : List RawRecord) :
    diffEntries [] rs = rs.map .Added := by
  induction rs with
  | nil => simpa using diffEntries_nil_nil
  | cons b rs ih => rw [diffEntries_nil_cons, ih]; rfl

theorem diffEntries_nil_right (os : List RawRecord) :
    diffEntries os [] = os.map .Removed := by
  induction os with
  | nil => simpa using diffEntries_nil_nil
  | cons a os ih => rw [diffEntries_cons_nil, ih]; rfl

theorem diffEntries_append_right (os e : List RawRecord) :
    diffEntries os (os ++ e) = e.map .Added := by
  induction os with
  | nil => simpa using diffEntries_nil_left e
  | cons a os ih =>
    show diffEntries (a :: os) (a :: (os ++ e)) = _
    rw [diffEntries_cons_cons]
    simp [ih]

theorem diffEntries_append_left (os e : List RawRecord) :
    diffEntries (os ++ e) os = e.map .Removed := by
  induction os with
  | nil => simpa using diffEntries_nil_right e
  | cons a os ih =>
    show diffEntries (a :: (os ++ e)) (a :: os) = _
    rw [diffEntries_cons_cons]
    simp [ih]

/-- Claim C1: the diff engine visits each index of `[0, max(m, n))` in
order; equal texts emit nothing, differing texts emit Modified, a record
present on only one side emits Removed or Added (as `spec_diffAt`
describes, case by case); the final reported total equals the number of
emitted entries. -/
theorem claim_C1 (original revised : List RawRecord) :
    (compare_qsos original revised).1 =
      (List.range (max original.length revised.length)).filterMap
        (spec_diffAt original revised) ∧
    (compare_qsos original revised).2 =
      (compare_qsos original revised).1.length := by
  rw [compare_qsos_eq]
  exact ⟨rfl, rfl⟩

/-- Claim C6: diffing an extracted record sequence against itself yields
zero amendment entries and a total count of 0. -/
theorem claim_C6 (qsos : List RawRecord) : compare_qsos qsos qsos = ([], 0) := by
  rw [compare_qsos_eq, diffEntries_self]
  rfl

/-- Claim C7: appending `extra` records at the tail of `original` yields
exactly the corresponding Added entries (so no Modified or Removed ones)
and a count of `extra.length`; removing trailing records symmetrically
yields exactly the corresponding Removed entries. -/
theorem claim_C7 (original extra : List RawRecord) :
    compare_qsos original (original ++ extra) =
      (extra.map AmendmentEntry.Added, extra.length) ∧
    compare_qsos (original ++ extra) original =
      (extra.map AmendmentEntry.Removed, extra.length) := by
  rw [compare_qsos_eq, compare_qsos_eq, diffEntries_append_right,
    diffEntries_append_left]
  simp

/-- Claim C2, counterexample: the source strips each line before testing
the `QSO:` prefix, so an indented line whose first non-blank characters
are `QSO:` — which does not itself start with `QSO:` — is selected. -/
theorem claim_C2_cex :
    pyStartsWith "  QSO: X 1".data qsoMarker = false ∧
    extract_qsos ["  QSO: X 1".data] = [⟨1, "QSO: X 1".data⟩] := by
  decide

theorem extractAux_eq (n : Nat) (lines : List PyStr) :
    extractAux n lines =
      (lines.enumFrom n).filterMap (fun p =>
        if pyStartsWith (pyStrip p.2) qsoMarker then
          some ⟨p.1, pyStrip p.2⟩
        else none) := by
  induction lines generalizing n with
  | nil => rfl
  | cons l ls ih =>
    rw [List.enumFrom_cons, List.filterMap_cons]
    by_cases h : pyStartsWith (pyStrip l) qsoMarker <;>
      simp [extractAux, h, ih]

/-- Claim C2, amended: the extractor strips leading and trailing
whitespace of every line first and selects exactly those lines whose
stripped form starts with the literal prefix `QSO:` (so an indented
`QSO:` line qualifies); the stripped text is stored, paired with the
1-based source line number, preserving file order. -/
theorem claim_C2 (lines : List PyStr) :
    extract_qsos lines =
      (lines.enumFrom 1).filterMap (fun p =>
        if pyStartsWith (pyStrip p.2) qsoMarker then
          some ⟨p.1, pyStrip p.2⟩
        else none) :=
  extractAux_eq 1 lines

/-- Claim C3: parsing succeeds exactly when the text splits into at least
13 whitespace-separated tokens; on success the 12 named fields are tokens
1 through 12 in that fixed positional order, and with fewer tokens the
parser returns no value. -/
theorem claim_C3 (text : PyStr) :
    (parse_qso text = none ↔ (pySplit text).length < 13) ∧
    ∀ h : 13 ≤ (pySplit text).length,
      parse_qso text = some
        { freq := (pySplit text).get ⟨1, by omega⟩
          mode := (pySplit text).get ⟨2, by omega⟩
          date := (pySplit text).get ⟨3, by omega⟩
          time := (pySplit text).get ⟨4, by omega⟩
          mycall := (pySplit text).get ⟨5, by omega⟩
          rst_sent := (pySplit text).get ⟨6, by omega⟩
          seq_sent := (pySplit text).get ⟨7, by omega⟩
          my_region := (pySplit text).get ⟨8, by omega⟩
          other_call := (pySplit text).get ⟨9, by omega⟩
          rst_rcvd := (pySplit text).get ⟨10, by omega⟩
          seq_rcvd := (pySplit text).get ⟨11, by omega⟩
          other_region := (pySplit text).get ⟨12, by omega⟩ } := by
  constructor
  · by_cases h : 13 ≤ (pySplit text).length
    · simp [parse_qso, h]
    · simp [parse_qso, h]
      omega
  · intro h
    simp only [parse_qso, h, if_pos, List.get_eq_getElem]
    congr 1
    simp only [ParsedQso.mk.injEq]
    refine ⟨?_, ?_, ?_, ?_, ?_, ?_, ?_, ?_, ?_, ?_, ?_, ?_⟩ <;>
      exact List.getD_eq_getElem _ _ (by omega)

/-- Claim C3 witness: a 2-token line fails to parse; the 13-token line of
the end-to-end example parses to its 12 positional fields. -/
theorem claim_C3_witness :
    parse_qso "QSO: a".data = none ∧
    parse_qso "QSO: 50232 CW 2024-01-15 1200 LB4UH 599 001 14 LA5XX 599 002 14".data =
      some
        { freq := "50232".data, mode := "CW".data, date := "2024-01-15".data
          time := "1200".data, mycall := "LB4UH".data, rst_sent := "599".data
          seq_sent := "001".data, my_region := "14".data, other_call := "LA5XX".data
          rst_rcvd := "599".data, seq_rcvd := "002".data, other_region := "14".data } :=
  ⟨(claim_C3 "QSO: a".data).1.mpr (by decide),
   ((claim_C3 _).2 (by decide)).trans (by decide)⟩

/-- Claim C5: the end-to-end example — one original line, the revised line
changing the `seq_sent` token `001` to `003` — produces exactly one
Modified entry whose changes list is exactly the `seq_sent` triple, with a
total amendment count of 1. -/
theorem claim_C5 :
    compare_qsos
      (extract_qsos
        ["QSO: 50232 CW 2024-01-15 1200 LB4UH 599 001 14 LA5XX 599 002 14".data])
      (extract_qsos
        ["QSO: 50232 CW 2024-01-15 1200 LB4UH 599 003 14 LA5XX 599 002 14".data]) =
    ([AmendmentEntry.Modified
        ⟨1, "QSO: 50232 CW 2024-01-15 1200 LB4UH 599 001 14 LA5XX 599 002 14".data⟩
        ⟨1, "QSO: 50232 CW 2024-01-15 1200 LB4UH 599 003 14 LA5XX 599 002 14".data⟩
        [("seq_sent", "001".data, "003".data)]],
     1) := by
  decide

theorem field_changes_self (p : ParsedQso) : field_changes p p = [] := by
  simp [field_changes, fieldPairs]

theorem changes_for_of_parse_eq (a b : PyStr) (p : ParsedQso)
    (ha : parse_qso a = some p) (hb : parse_qso b = some p) :
    changes_for a b = [] := by
  simp [changes_for, ha, hb, field_changes_self]

theorem changes_for_of_none_left (a b : PyStr) (ha : parse_qso a = none) :
    changes_for a b = [] := by
  cases hb : parse_qso b <;> simp [changes_for, ha, hb]

theorem changes_for_of_none_right (a b : PyStr) (hb : parse_qso b = none) :
    changes_for a b = [] := by
  cases ha : parse_qso a <;> simp [changes_for, ha, hb]

theorem modified_mem (os rs : List RawRecord) (i : Nat)
    (ho : i < os.length) (hr : i < rs.length)
    (hne : (os.get ⟨i, ho⟩).text ≠ (rs.get ⟨i, hr⟩).text) :
    AmendmentEntry.Modified (os.get ⟨i, ho⟩) (rs.get ⟨i, hr⟩)
      (changes_for (os.get ⟨i, ho⟩).text (rs.get ⟨i, hr⟩).text)
      ∈ (compare_qsos os rs).1 := by
  rw [compare_qsos_eq]
  show _ ∈ diffEntries os rs
  unfold diffEntries
  refine List.mem_filterMap.mpr ⟨i, List.mem_range.mpr ?_, ?_⟩
  · exact lt_of_lt_of_le ho (le_max_left _ _)
  · simp only [List.get_eq_getElem] at hne
    simp only [spec_diffAt, List.getElem?_eq_getElem ho,
      List.getElem?_eq_getElem hr, List.get_eq_getElem]
    simp [hne]

/-- Claim C4: at an aligned position where both records exist and the raw
texts differ, a Modified entry is emitted and counted even with an empty
changes list — both when both sides parse to equal fields and when either
side fails to parse. -/
theorem claim_C4 (os rs : List RawRecord) (i : Nat)
    (ho : i < os.length) (hr : i < rs.length)
    (hne : (os.get ⟨i, ho⟩).text ≠ (rs.get ⟨i, hr⟩).text)
    (hcase : (∃ p, parse_qso (os.get ⟨i, ho⟩).text = some p ∧
                   parse_qso (rs.get ⟨i, hr⟩).text = some p) ∨
             parse_qso (os.get ⟨i, ho⟩).text = none ∨
             parse_qso (rs.get ⟨i, hr⟩).text = none) :
    AmendmentEntry.Modified (os.get ⟨i, ho⟩) (rs.get ⟨i, hr⟩) []
      ∈ (compare_qsos os rs).1 ∧
    1 ≤ (compare_qsos os rs).2 := by
  have hch : changes_for (os.get ⟨i, ho⟩).text (rs.get ⟨i, hr⟩).text = [] := by
    rcases hcase with ⟨p, h1, h2⟩ | h1 | h2
    · exact changes_for_of_parse_eq _ _ p h1 h2
    · exact changes_for_of_none_left _ _ h1
    · exact changes_for_of_none_right _ _ h2
  have hmem := modified_mem os rs i ho hr hne
  rw [hch] at hmem
  refine ⟨hmem, ?_⟩
  have hlen : 0 < (compare_qsos os rs).1.length :=
    List.length_pos.mpr (List.ne_nil_of_mem hmem)
  have := compare_qsos_eq os rs
  rw [this] at hlen ⊢
  exact hlen

/-- Claim C4 witness: two aligned 2-token records with differing texts —
neither parses, and a Modified entry with an empty changes list is
emitted and counted. -/
theorem claim_C4_witness :
    AmendmentEntry.Modified ⟨1, "QSO: a".data⟩ ⟨1, "QSO: b".data⟩ []
      ∈ (compare_qsos [⟨1, "QSO: a".data⟩] [⟨1, "QSO: b".data⟩]).1 ∧
    1 ≤ (compare_qsos [⟨1, "QSO: a".data⟩] [⟨1, "QSO: b".data⟩]).2 :=
  claim_C4 [⟨1, "QSO: a".data⟩] [⟨1, "QSO: b".data⟩] 0
    (by decide) (by decide) (by decide) (Or.inr (Or.inl (by decide)))

/-- A file read: `.ok` holds the file's lines, `.error` an unreadable
path (the `OSError` raised by `open`). -/
abbrev FileRead := Except String (List PyStr)

/-- Embedding of `extract_qsos` at the file level: opening the file
either fails or yields its lines, which are then scanned for records. -/
def extract_qsos_file (f : FileRead) : Except String (List RawRecord) :=
  f.map extract_qsos

/-- Modelled from the spec: the process-level behavior of a file-access
error. `compare_qsos` extracts both files before printing anything, an
unreadable path raises an uncaught error, and the interpreter then aborts
the run, so a report value exists only when both reads succeed. -/
def run_compare (rev0_file rev4_file : FileRead) :
    Except String (List AmendmentEntry × Nat) := do
  let rev0_qsos ← extract_qsos_file rev0_file
  let rev4_qsos ← extract_qsos_file rev4_file
  pure (compare_qsos rev0_qsos rev4_qsos)

/-- Modelled from the spec: an uncaught error terminates the interpreter
with a non-zero exit status (1), a completed run with 0. -/
def run_exit_code (r : Except String (List AmendmentEntry × Nat)) : Nat :=
  match r with
  | .error _ => 1
  | .ok _ => 0

/-- Claim C8: if either input file cannot be read, the run aborts before
any report is produced (the result is the bare error, carrying no
entries, no count, no rendered text) and the exit status is non-zero. -/
theorem claim_C8 :
    (∀ (e : String) (rev4_file : FileRead),
        run_compare (.error e) rev4_file = .error e ∧
        run_exit_code (run_compare (.error e) rev4_file) = 1) ∧
    (∀ (lines : List PyStr) (e : String),
        run_compare (.ok lines) (.error e) = .error e ∧
        run_exit_code (run_compare (.ok lines) (.error e)) = 1) :=
  ⟨fun _ _ => ⟨rfl, rfl⟩, fun _ _ => ⟨rfl, rfl⟩⟩

/-- The observable outcome of the `__main__` block: lines printed to
standard output and to standard error, the exit status, and whether the
comparison ran. -/
structure MainResult where
  out : List String
  err : List String
  exitCode : Nat
  ranComparison : Bool
deriving DecidableEq, Repr

/-- The usage line of the `__main__` block. -/
def usageText : String := "Usage: python3 qso_diff_analyzer.py rev_0.log rev_4.log"

/-- Embedding of the `__main__` block: `argv` is `sys.argv` (program name
first, so two positional arguments mean length 3), and `reportLines`
stands for whatever the comparison would print. The usage line is written
by `print`, which writes to standard output; nothing in the block writes
to standard error. -/
def main_entry (argv : List String) (reportLines : List String) : MainResult :=
  if argv.length ≠ 3 then
    { out := [usageText], err := [], exitCode := 1, ranComparison := false }
  else
    { out := reportLines, err := [], exitCode := 0, ranComparison := true }

/-- Claim C9, counterexample: invoked with no positional argument, the
program leaves standard error empty — the usage text goes to standard
output instead — so the claim that usage is printed to standard error
fails. -/
theorem claim_C9_cex :
    (main_entry ["qso_diff_analyzer.py"] []).err = [] ∧
    (main_entry ["qso_diff_analyzer.py"] []).out = [usageText] ∧
    (main_entry ["qso_diff_analyzer.py"] []).exitCode = 1 := by
  decide

/-- Claim C9, amended: with a number of positional arguments other than
exactly two, the program prints the usage text to standard output (not
standard error, which stays empty) and exits with status 1 without
performing any comparison. -/
theorem claim_C9 (argv reportLines : List String) (h : argv.length ≠ 3) :
    (main_entry argv reportLines).out = [usageText] ∧
    (main_entry argv reportLines).err = [] ∧
    (main_entry argv reportLines).exitCode = 1 ∧
    (main_entry argv reportLines).ranComparison = false := by
  simp [main_entry, h]

/-- Claim C9 witness: the amended claim at a concrete one-element argv. -/
theorem claim_C9_witness :
    (main_entry ["qso_diff_analyzer.py"] ["banner"]).out = [usageText] ∧
    (main_entry ["qso_diff_analyzer.py"] ["banner"]).err = [] ∧
    (main_entry ["qso_diff_analyzer.py"] ["banner"]).exitCode = 1 ∧
    (main_entry ["qso_diff_analyzer.py"] ["banner"]).ranComparison = false :=
  claim_C9 ["qso_diff_analyzer.py"] ["banner"] (by decide)

theorem getElem?_take_drop (l : List PyStr) (k : Nat) (h1 : 1 ≤ k)
    (h2 : k ≤ 12) : ((l.take 13).drop 1)[k - 1]? = l[k]? := by
  rw [List.getElem?_drop]
  have hk : 1 + (k - 1) = k := by omega
  rw [hk]
  exact List.getElem?_take_of_lt (by omega)

theorem getD_eq_of_agree (a b : List PyStr)
    (h : (a.take 13).drop 1 = (b.take 13).drop 1) (k : Nat)
    (h1 : 1 ≤ k) (h2 : k ≤ 12) : a.getD k [] = b.getD k [] := by
  rw [List.getD_eq_getElem?_getD, List.getD_eq_getElem?_getD,
    ← getElem?_take_drop a k h1 h2, ← getElem?_take_drop b k h1 h2, h]

theorem parse_eq_of_agree (a b : PyStr)
    (hla : 13 ≤ (pySplit a).length) (hlb : 13 ≤ (pySplit b).length)
    (h : ((pySplit a).take 13).drop 1 = ((pySplit b).take 13).drop 1) :
    parse_qso a = parse_qso b := by
  have key : ∀ k, 1 ≤ k → k ≤ 12 →
      (pySplit a).getD k [] = (pySplit b).getD k [] :=
    fun k h1 h2 => getD_eq_of_agree (pySplit a) (pySplit b) h k h1 h2
  unfold parse_qso
  simp only [hla, hlb, if_true, Option.some.injEq, ParsedQso.mk.injEq]
  exact ⟨key 1 (by omega) (by omega), key 2 (by omega) (by omega),
    key 3 (by omega) (by omega), key 4 (by omega) (by omega),
    key 5 (by omega) (by omega), key 6 (by omega) (by omega),
    key 7 (by omega) (by omega), key 8 (by omega) (by omega),
    key 9 (by omega) (by omega), key 10 (by omega) (by omega),
    key 11 (by omega) (by omega), key 12 (by omega) (by omega)⟩

/-- Claim C10: tokens beyond position 12 never influence field-level
diffing — two aligned records that both split into at least 13 tokens,
agree on tokens 1 through 12, and differ somewhere after token 12 yield a
Modified entry whose changes list is empty. -/
theorem claim_C10 (os rs : List RawRecord) (i : Nat)
    (ho : i < os.length) (hr : i < rs.length)
    (hla : 13 ≤ (pySplit (os.get ⟨i, ho⟩).text).length)
    (hlb : 13 ≤ (pySplit (rs.get ⟨i, hr⟩).text).length)
    (hagree : ((pySplit (os.get ⟨i, ho⟩).text).take 13).drop 1 =
              ((pySplit (rs.get ⟨i, hr⟩).text).take 13).drop 1)
    (hdiff : (pySplit (os.get ⟨i, ho⟩).text).drop 13 ≠
             (pySplit (rs.get ⟨i, hr⟩).text).drop 13) :
    changes_for (os.get ⟨i, ho⟩).text (rs.get ⟨i, hr⟩).text = [] ∧
    AmendmentEntry.Modified (os.get ⟨i, ho⟩) (rs.get ⟨i, hr⟩) []
      ∈ (compare_qsos os rs).1 := by
  have hne : (os.get ⟨i, ho⟩).text ≠ (rs.get ⟨i, hr⟩).text :=
    fun hab => hdiff (by rw [hab])
  have hp : parse_qso (os.get ⟨i, ho⟩).text = parse_qso (rs.get ⟨i, hr⟩).text :=
    parse_eq_of_agree _ _ hla hlb hagree
  have hch : changes_for (os.get ⟨i, ho⟩).text (rs.get ⟨i, hr⟩).text = [] := by
    cases hpa : parse_qso (os.get ⟨i, ho⟩).text with
    | none => exact changes_for_of_none_left _ _ hpa
    | some p => exact changes_for_of_parse_eq _ _ p hpa (hp.symm.trans hpa)
  refine ⟨hch, ?_⟩
  have hmem := modified_mem os rs i ho hr hne
  rw [hch] at hmem
  exact hmem

/-- Claim C10 witness: two 14-token records agreeing on tokens 1 through
12 and differing only in token 13 produce a Modified entry with an empty
changes list. -/
theorem claim_C10_witness :
    changes_for "QSO: a b c d e f g h i j k l m".data
        "QSO: a b c d e f g h i j k l n".data = [] ∧
    AmendmentEntry.Modified ⟨1, "QSO: a b c d e f g h i j k l m".data⟩
        ⟨1, "QSO: a b c d e f g h i j k l n".data⟩ []
      ∈ (compare_qsos [⟨1, "QSO: a b c d e f g h i j k l m".data⟩]
          [⟨1, "QSO: a b c d e f g h i j k l n".data⟩]).1 :=
  claim_C10 [⟨1, "QSO: a b c d e f g h i j k l m".data⟩]
    [⟨1, "QSO: a b c d e f g h i j k l n".data⟩] 0
    (by decide) (by decide) (by decide) (by decide) (by decide) (by decide)

end QsoDiff
